import Mathlib

/-!
Verification of the structured logging pipeline in `libdevcore/Log.cpp`
(cpp-eth-qtep). The non-QTEP branch of the file wires a boost.log pipeline:
a per-sink filter over severity and channel, a formatter with a fixed field
order, a thread-name registry, and a process-wide vm-trace flag. We embed
those functions shallowly and prove the specified properties about them.
-/

namespace Dev

/-- Modelled from the spec: the `Verbosity` enumeration lives in `Log.h`,
which is not part of the provided sources; the spec fixes the order
Error < Warning < Info < Debug < Trace with a lower numeric value meaning
higher urgency, so we take the canonical consecutive values 0..4. -/
def VerbosityError : Int := 0

/-- Modelled from the spec: see `VerbosityError`. -/
def VerbosityWarning : Int := 1

/-- Modelled from the spec: see `VerbosityError`. -/
def VerbosityInfo : Int := 2

/-- Modelled from the spec: see `VerbosityError`. -/
def VerbosityDebug : Int := 3

/-- Modelled from the spec: see `VerbosityError`. -/
def VerbosityTrace : Int := 4

/-- The configuration value accepted by `setupLogging` (`LoggingOptions`
in `Log.h`, fields as used by `Log.cpp`): verbosity threshold, include-
and exclude-channel sets (membership is all that matters, so we carry
lists), and the vm-trace flag. -/
structure LoggingOptions where
  verbosity : Int
  includeChannels : List String
  excludeChannels : List String
  vmTrace : Bool

/-- A timestamp as consumed by the `%m-%d %H:%M:%S` formatter pattern. -/
structure Timestamp where
  month : Nat
  day : Nat
  hour : Nat
  minute : Nat
  second : Nat
deriving DecidableEq, Repr

/-- A log record with the attributes `Log.cpp` declares via
`BOOST_LOG_ATTRIBUTE_KEYWORD`: channel, optional prefix/suffix, severity,
thread name, timestamp, plus the message payload. Optional attributes are
`Option` (presence flag), mirroring `has_attr` in the formatter. -/
structure Record where
  timestamp : Timestamp
  severity : Int
  channel : String
  threadName : String
  prefixAttr : Option String
  suffixAttr : Option String
  message : String
deriving DecidableEq, Repr

/-- The sink filter lambda installed by `setupLogging` (Log.cpp:128-136):
reject when severity exceeds the verbosity threshold, then accept iff the
include set is empty or holds the channel, and the exclude set does not
hold the channel. -/
def sinkFilter (opts : LoggingOptions) (severity : Int) (channel : String) : Bool :=
  if severity > opts.verbosity then
    false
  else
    (opts.includeChannels.isEmpty || opts.includeChannels.contains channel)
      && !(opts.excludeChannels.contains channel)

/-- `verbosityToString` (Log.cpp:57-73): a switch over the five severity
constants, returning the empty string on fall-through. -/
def verbosityToString (v : Int) : String :=
  if v = VerbosityError then "ERROR"
  else if v = VerbosityWarning then "WARN"
  else if v = VerbosityInfo then "INFO"
  else if v = VerbosityDebug then "DEBUG"
  else if v = VerbosityTrace then "TRACE"
  else ""

/-- Modelled from the spec: the colour escape constants `EthViolet`,
`EthNavy`, `EthReset` are defined in the terminal header, not in the
provided sources; the spec treats colour wrapping as decorative markup
internal to the formatter, so their exact values are irrelevant and we
pick distinct ANSI escape strings. -/
def EthViolet : String := "\x1b[35m"

/-- Modelled from the spec: see `EthViolet`. -/
def EthNavy : String := "\x1b[34m"

/-- Modelled from the spec: see `EthViolet`. -/
def EthReset : String := "\x1b[0m"

/-- One insertion into the formatting stream: either decorative markup
(colour code or the literal separating space) or a data field. -/
inductive Segment where
  | color (code : String)
  | sp
  | sevLabel (s : String)
  | tsField (s : String)
  | threadField (s : String)
  | channelField (s : String)
  | prefixField (s : String)
  | messageField (s : String)
  | suffixField (s : String)
deriving DecidableEq, Repr

/-- `std::setw(w) << std::left`: pad on the right with spaces up to width
`w`; a longer string is emitted unchanged. -/
def padToWidth (w : Nat) (s : String) : String :=
  s ++ String.mk (List.replicate (w - s.length) ' ')

/-- Zero-pad a number to two digits, as boost's date-time facet does for
each `%m`/`%d`/`%H`/`%M`/`%S` directive. -/
def pad2 (n : Nat) : String :=
  if n < 10 then "0" ++ toString n else toString n

/-- `format_date_time(timestamp, "%m-%d %H:%M:%S")` (Log.cpp:54): the
timestamp rendered under the fixed pattern. -/
def formatTimestamp (t : Timestamp) : String :=
  pad2 t.month ++ "-" ++ pad2 t.day ++ " "
    ++ pad2 t.hour ++ ":" ++ pad2 t.minute ++ ":" ++ pad2 t.second

/-- `formatter` (Log.cpp:75-91) as the sequence of stream insertions it
performs: severity label padded to 5, space; violet timestamp, reset,
space; navy thread name padded to 4, reset, space; channel padded to 6,
space; if the prefix attribute is present, navy prefix, reset, space; the
message; if the suffix attribute is present, space, navy suffix, reset. -/
def formatter (rec : Record) : List Segment :=
  [Segment.sevLabel (padToWidth 5 (verbosityToString rec.severity)), Segment.sp]
    ++ [Segment.color EthViolet, Segment.tsField (formatTimestamp rec.timestamp),
        Segment.color EthReset, Segment.sp]
    ++ [Segment.color EthNavy, Segment.threadField (padToWidth 4 rec.threadName),
        Segment.color EthReset, Segment.sp]
    ++ [Segment.channelField (padToWidth 6 rec.channel), Segment.sp]
    ++ (match rec.prefixAttr with
        | some p => [Segment.color EthNavy, Segment.prefixField p,
                     Segment.color EthReset, Segment.sp]
        | none => [])
    ++ [Segment.messageField rec.message]
    ++ (match rec.suffixAttr with
        | some s => [Segment.sp, Segment.color EthNavy, Segment.suffixField s,
                     Segment.color EthReset]
        | none => [])

/-- The text a segment contributes to the rendered line. -/
def renderSegment : Segment → String
  | Segment.color c => c
  | Segment.sp => " "
  | Segment.sevLabel s => s
  | Segment.tsField s => s
  | Segment.threadField s => s
  | Segment.channelField s => s
  | Segment.prefixField s => s
  | Segment.messageField s => s
  | Segment.suffixField s => s

/-- The rendered line: concatenation of all segments. -/
def renderLine (segs : List Segment) : String :=
  String.join (segs.map renderSegment)

/-- Decorative (non-data) segments: colour markup and separator spaces. -/
def isMarkup : Segment → Bool
  | Segment.color _ => true
  | Segment.sp => true
  | _ => false

/-- The data fields of a rendered line, in rendering order. -/
def dataSegments (segs : List Segment) : List Segment :=
  segs.filter (fun s => !isMarkup s)

/-- The fields recovered by parsing a rendered line. -/
structure ParsedLine where
  sevLabel : String
  tsField : String
  threadField : String
  channelField : String
  prefixField : Option String
  messageField : String
  suffixField : Option String
deriving DecidableEq, Repr

/-- Parse a rendered line back into its fields: strip markup and match
the data fields against the fixed order severity label, timestamp, thread
name, channel, optional prefix, message, optional suffix. -/
def parseLine (segs : List Segment) : Option ParsedLine :=
  match dataSegments segs with
  | [Segment.sevLabel sl, Segment.tsField ts, Segment.threadField tn,
     Segment.channelField ch, Segment.messageField m] =>
      some ⟨sl, ts, tn, ch, none, m, none⟩
  | [Segment.sevLabel sl, Segment.tsField ts, Segment.threadField tn,
     Segment.channelField ch, Segment.prefixField p, Segment.messageField m] =>
      some ⟨sl, ts, tn, ch, some p, m, none⟩
  | [Segment.sevLabel sl, Segment.tsField ts, Segment.threadField tn,
     Segment.channelField ch, Segment.messageField m, Segment.suffixField sf] =>
      some ⟨sl, ts, tn, ch, none, m, some sf⟩
  | [Segment.sevLabel sl, Segment.tsField ts, Segment.threadField tn,
     Segment.channelField ch, Segment.prefixField p, Segment.messageField m,
     Segment.suffixField sf] =>
      some ⟨sl, ts, tn, ch, some p, m, some sf⟩
  | _ => none

/-- Does a segment list contain a prefix field? -/
def hasPrefixSegment (segs : List Segment) : Bool :=
  segs.any (fun s => match s with | Segment.prefixField _ => true | _ => false)

/-- Does a segment list contain a suffix field? -/
def hasSuffixSegment (segs : List Segment) : Bool :=
  segs.any (fun s => match s with | Segment.suffixField _ => true | _ => false)

/-- `ThreadLocalLogName` (Log.cpp:44-48): a
`boost::thread_specific_ptr<std::string>`, one optional slot per thread,
modelled as a map from thread identifiers to optional names. -/
structure ThreadLocalLogName where
  m_name : Nat → Option String

/-- The `ThreadLocalLogName` constructor (Log.cpp:46): resets the calling
thread's slot to the given name; every other thread's slot stays empty. -/
def mkThreadLocalLogName (name : String) (callingThread : Nat) : ThreadLocalLogName :=
  ⟨fun t => if t = callingThread then some name else none⟩

/-- `g_logThreadName("main")` (Log.cpp:50): static initialisation runs on
the main thread, so the main thread's slot holds "main" from the start. -/
def g_logThreadName (mainThread : Nat) : ThreadLocalLogName :=
  mkThreadLocalLogName "main" mainThread

/-- `getThreadName` (Log.cpp:96-106), portable branch: the calling
thread's slot if set, otherwise the sentinel. -/
def getThreadName (st : ThreadLocalLogName) (callingThread : Nat) : String :=
  match st.m_name callingThread with
  | some n => n
  | none => "<unknown>"

/-- `setThreadName` (Log.cpp:108-117), portable branch: reset the calling
thread's slot to the new name. -/
def setThreadName (n : String) (callingThread : Nat) (st : ThreadLocalLogName) :
    ThreadLocalLogName :=
  ⟨fun t => if t = callingThread then some n else st.m_name t⟩

/-- A sequence of `setThreadName` calls, each a (name, calling thread)
pair, applied in order. -/
def applyNameCalls (st : ThreadLocalLogName) : List (String × Nat) → ThreadLocalLogName
  | [] => st
  | p :: rest => applyNameCalls (setThreadName p.1 p.2 st) rest

/-- The mutable process-wide state of the translation unit: the vm-trace
flag `g_vmTraceEnabled` (Log.cpp:93), the thread-name registry, the
installed sinks (each carrying the configuration snapshot its filter
captured), and the records written to the output stream. -/
structure LogState where
  vmTraceEnabled : Bool
  logThreadName : ThreadLocalLogName
  sinks : List LoggingOptions
  out : List (List Segment)

/-- The state before any call to `setupLogging`: `g_vmTraceEnabled` is
initialised to false (Log.cpp:93), the registry holds only the main
thread's "main", no sink is installed, nothing has been written. -/
def initialLogState (mainThread : Nat) : LogState :=
  { vmTraceEnabled := false
    logThreadName := g_logThreadName mainThread
    sinks := []
    out := [] }

/-- The state-changing operations the translation unit exposes. -/
inductive LogOp where
  | setup (opts : LoggingOptions)
  | setName (n : String) (callingThread : Nat)
  | emit (rec : Record)

/-- Is the operation a `setupLogging` call? -/
def LogOp.isSetup : LogOp → Bool
  | LogOp.setup _ => true
  | _ => false

/-- One operation applied to the state. `setup` installs a sink built
from the options and assigns `g_vmTraceEnabled = _options.vmTrace`
(Log.cpp:119-153; re-invocation adds another sink, per the documented
no-reconfigure restriction); `setName` updates the registry; `emit` runs
every installed sink's filter and appends the formatted record once per
accepting sink. -/
def applyLogOp (s : LogState) : LogOp → LogState
  | LogOp.setup opts =>
      { s with sinks := s.sinks ++ [opts], vmTraceEnabled := opts.vmTrace }
  | LogOp.setName n t =>
      { s with logThreadName := setThreadName n t s.logThreadName }
  | LogOp.emit rec =>
      { s with
        out :=
          s.out ++
            ((s.sinks.filter (fun o => sinkFilter o rec.severity rec.channel)).map
              (fun _ => formatter rec)) }

/-- A sequence of operations applied in order. -/
def applyLogOps (s : LogState) : List LogOp → LogState
  | [] => s
  | op :: rest => applyLogOps (applyLogOp s op) rest

/-- `isVmTraceEnabled` (Log.cpp:155-158): read `g_vmTraceEnabled`. -/
def isVmTraceEnabled (s : LogState) : Bool :=
  s.vmTraceEnabled

/-- The diagnostic line the installed exception handler writes to
standard error (Log.cpp:148-149). -/
def exceptionDiagnostic (what : String) : String :=
  "Exception from the logging library: " ++ what ++ "\n"

/-- The two streams the pipeline writes: formatted records to the output
stream, diagnostics to standard error. -/
structure PipelineState where
  out : List (List Segment)
  err : List String

/-- Modelled from the spec: the record-processing loop that invokes the
exception handler installed at Log.cpp:147-150 lives in the boost.log
core, not in this translation unit. Per the spec, one record is filtered,
then formatted and written by a fallible step `fmt`; any failure raised
there is caught at the core boundary, handed to the installed handler
(which appends its diagnostic to standard error), and processing
continues. -/
def processRecord (fmt : Record → Except String (List Segment))
    (opts : LoggingOptions) (s : PipelineState) (rec : Record) : PipelineState :=
  if sinkFilter opts rec.severity rec.channel then
    match fmt rec with
    | Except.ok line => { s with out := s.out ++ [line] }
    | Except.error e => { s with err := s.err ++ [exceptionDiagnostic e] }
  else s

/-- The pipeline applied to a sequence of submitted records in order. -/
def processRecords (fmt : Record → Except String (List Segment))
    (opts : LoggingOptions) (s : PipelineState) : List Record → PipelineState
  | [] => s
  | rec :: rest => processRecords fmt opts (processRecord fmt opts s rec) rest

/-- State of the asynchronous sink: the emitting thread's records not yet
submitted (in submission order), the internal queue between the emitting
thread and the backend worker, and the lines written to the stream. -/
structure AsyncState where
  pending : List Record
  queue : List Record
  written : List (List Segment)

/-- Modelled from the spec: the `asynchronous_sink` frontend selected in
release builds (Log.cpp:22-25) is boost library code. Per the spec, the
emitting thread runs the sink's filter and enqueues each accepted record
at the tail of the internal queue; a dedicated worker dequeues from the
head in FIFO order, formats and writes. Emission and worker steps
interleave arbitrarily. -/
inductive AsyncStep (opts : LoggingOptions) : AsyncState → AsyncState → Prop
  | submit (rec : Record) (pending : List Record) (queue : List Record)
      (written : List (List Segment)) :
      sinkFilter opts rec.severity rec.channel = true →
      AsyncStep opts ⟨rec :: pending, queue, written⟩ ⟨pending, queue ++ [rec], written⟩
  | reject (rec : Record) (pending : List Record) (queue : List Record)
      (written : List (List Segment)) :
      sinkFilter opts rec.severity rec.channel = false →
      AsyncStep opts ⟨rec :: pending, queue, written⟩ ⟨pending, queue, written⟩
  | write (rec : Record) (pending : List Record) (queue : List Record)
      (written : List (List Segment)) :
      AsyncStep opts ⟨pending, rec :: queue, written⟩
        ⟨pending, queue, written ++ [formatter rec]⟩

/-- Reachability under arbitrarily interleaved submit/reject/write
steps. -/
def AsyncReach (opts : LoggingOptions) : AsyncState → AsyncState → Prop :=
  Relation.ReflTransGen (AsyncStep opts)

/-- The conserved quantity of the asynchronous sink: what was written,
what is queued, and what is still pending and will pass the filter,
concatenated in that order. -/
def asyncInvariant (opts : LoggingOptions) (total : List (List Segment))
    (s : AsyncState) : Prop :=
  s.written ++ s.queue.map formatter
      ++ ((s.pending.filter (fun r => sinkFilter opts r.severity r.channel)).map formatter)
    = total

/-- A demonstration configuration for the asynchronous sink: verbosity
Info, no include set, channel "net" excluded. -/
def asyncDemoOpts : LoggingOptions := ⟨2, [], ["net"], false⟩

/-- Demonstration record: accepted (channel "rpc", severity 1). -/
def asyncDemoRec1 : Record := ⟨⟨1, 2, 3, 4, 5⟩, 1, "rpc", "main", none, none, "a"⟩

/-- Demonstration record: rejected (channel "net" is excluded). -/
def asyncDemoRec2 : Record := ⟨⟨1, 2, 3, 4, 5⟩, 1, "net", "main", none, none, "b"⟩

/-- Demonstration record: accepted (channel "rpc", severity 0). -/
def asyncDemoRec3 : Record := ⟨⟨1, 2, 3, 4, 5⟩, 0, "rpc", "main", none, none, "c"⟩

end Dev

namespace Dev

/-- C1: the sink filter accepts a record iff its severity is at most the
configured verbosity, the include set is empty or holds the channel, and
the exclude set does not hold the channel; hence a channel in both sets is
rejected, and the verbosity=Info / exclude={"net"} scenario behaves as
specified. -/
theorem sinkFilter_accepts_iff :
    (∀ (opts : LoggingOptions) (sev : Int) (ch : String),
      sinkFilter opts sev ch = true ↔
        sev ≤ opts.verbosity ∧
          (opts.includeChannels = [] ∨ ch ∈ opts.includeChannels) ∧
          ch ∉ opts.excludeChannels)
    ∧ (∀ (opts : LoggingOptions) (sev : Int) (ch : String),
        ch ∈ opts.includeChannels → ch ∈ opts.excludeChannels →
          sinkFilter opts sev ch = false)
    ∧ (sinkFilter ⟨VerbosityInfo, [], ["net"], false⟩ VerbosityWarning "net" = false
        ∧ sinkFilter ⟨VerbosityInfo, [], ["net"], false⟩ VerbosityWarning "rpc" = true
        ∧ sinkFilter ⟨VerbosityInfo, [], ["net"], false⟩ VerbosityTrace "rpc" = false) := by
  refine ⟨?_, ?_, by decide⟩
  · intro opts sev ch
    simp only [sinkFilter]
    split
    · rename_i hgt
      constructor
      · intro h
        exact absurd h (by simp)
      · rintro ⟨hle, -, -⟩
        exact absurd hle (not_le.mpr hgt)
    · rename_i hgt
      push_neg at hgt
      simp [List.contains, List.elem_iff, List.isEmpty_iff, hgt, and_assoc]
  · intro opts sev ch hin hex
    simp only [sinkFilter]
    split
    · rfl
    · simp [List.contains, List.elem_iff, hex]

/-- C1 witness: the accept-iff characterisation evaluated at a concrete
configuration and record. -/
theorem sinkFilter_accepts_iff_witness :
    sinkFilter ⟨2, ["rpc"], ["net"], false⟩ 1 "rpc" = true := by
  exact (sinkFilter_accepts_iff.1 ⟨2, ["rpc"], ["net"], false⟩ 1 "rpc").2
    ⟨by decide, Or.inr (by decide), by decide⟩

/-- C2: the filter is monotone in severity: for a fixed configuration and
channel, if a less urgent severity S2 is accepted then any more urgent
severity S1 < S2 is accepted too. -/
theorem sinkFilter_monotone :
    ∀ (opts : LoggingOptions) (ch : String) (s1 s2 : Int),
      s1 < s2 → sinkFilter opts s2 ch = true → sinkFilter opts s1 ch = true := by
  intro opts ch s1 s2 hlt h2
  simp only [sinkFilter] at h2 ⊢
  split at h2
  · exact absurd h2 (by simp)
  · rename_i hle
    split
    · rename_i hgt
      push_neg at hle
      omega
    · exact h2

/-- C2 witness: monotonicity applied at severities 1 < 3 under
verbosity 4. -/
theorem sinkFilter_monotone_witness :
    sinkFilter ⟨4, [], [], false⟩ 1 "net" = true :=
  sinkFilter_monotone ⟨4, [], [], false⟩ "net" 1 3 (by decide) (by decide)

/-- C6: `verbosityToString` is total on the integers: it maps the five
named constants to their labels and every other integer to the empty
string. -/
theorem verbosityToString_total :
    (verbosityToString VerbosityError = "ERROR"
      ∧ verbosityToString VerbosityWarning = "WARN"
      ∧ verbosityToString VerbosityInfo = "INFO"
      ∧ verbosityToString VerbosityDebug = "DEBUG"
      ∧ verbosityToString VerbosityTrace = "TRACE")
    ∧ ∀ v : Int,
        v ≠ VerbosityError → v ≠ VerbosityWarning → v ≠ VerbosityInfo →
        v ≠ VerbosityDebug → v ≠ VerbosityTrace →
        verbosityToString v = "" := by
  refine ⟨by decide, ?_⟩
  intro v h0 h1 h2 h3 h4
  simp [verbosityToString, h0, h1, h2, h3, h4]

/-- C6 witness: the out-of-range clause evaluated at severity 17. -/
theorem verbosityToString_total_witness :
    verbosityToString 17 = "" :=
  verbosityToString_total.2 17 (by decide) (by decide) (by decide) (by decide) (by decide)

/-- C3: the formatter renders the fields in the fixed order severity
label, timestamp (pattern %m-%d %H:%M:%S), thread name, channel, prefix
when present, message, suffix when present, and parsing the rendered line
recovers exactly those fields in that order. -/
theorem formatter_parse_roundTrip :
    ∀ rec : Record,
      parseLine (formatter rec) =
        some ⟨padToWidth 5 (verbosityToString rec.severity),
              formatTimestamp rec.timestamp,
              padToWidth 4 rec.threadName,
              padToWidth 6 rec.channel,
              rec.prefixAttr,
              rec.message,
              rec.suffixAttr⟩ := by
  intro rec
  cases hp : rec.prefixAttr <;> cases hs : rec.suffixAttr <;>
    simp [formatter, parseLine, dataSegments, isMarkup, List.filter, hp, hs]

/-- C7: the formatter emits a prefix segment iff the prefix attribute is
present and a suffix segment iff the suffix attribute is present; a
record whose prefix attribute holds the empty string still renders a
prefix segment (absence and empty are distinguishable). -/
theorem formatter_optional_presence :
    (∀ rec : Record,
      hasPrefixSegment (formatter rec) = rec.prefixAttr.isSome
        ∧ hasSuffixSegment (formatter rec) = rec.suffixAttr.isSome)
    ∧ (∀ rec : Record, rec.prefixAttr = some "" →
        Segment.prefixField "" ∈ formatter rec) := by
  constructor
  · intro rec
    cases hp : rec.prefixAttr <;> cases hs : rec.suffixAttr <;>
      simp [formatter, hasPrefixSegment, hasSuffixSegment, hp, hs]
  · intro rec hp
    cases hs : rec.suffixAttr <;> simp [formatter, hp, hs]

/-- C7 witness: a record carrying the empty string as its prefix
attribute renders an (empty) prefix segment. -/
theorem formatter_optional_presence_witness :
    Segment.prefixField "" ∈
      formatter ⟨⟨1, 2, 3, 4, 5⟩, 0, "net", "main", some "", none, "m"⟩ :=
  formatter_optional_presence.2 ⟨⟨1, 2, 3, 4, 5⟩, 0, "net", "main", some "", none, "m"⟩ rfl

/-- A sequence of `setThreadName` calls made by other threads leaves a
thread's slot untouched. -/
theorem applyNameCalls_slot_of_not_called :
    ∀ (calls : List (String × Nat)) (st : ThreadLocalLogName) (t : Nat),
      (∀ p ∈ calls, p.2 ≠ t) →
      (applyNameCalls st calls).m_name t = st.m_name t := by
  intro calls
  induction calls with
  | nil =>
    intro st t h
    rfl
  | cons p rest ih =>
    intro st t h
    simp only [applyNameCalls]
    rw [ih _ t (fun q hq => h q (List.mem_cons_of_mem p hq))]
    have hp : p.2 ≠ t := h p (List.mem_cons_self p rest)
    simp [setThreadName, Ne.symm hp]

/-- C5 counterexample: in the initial state, before any `setThreadName`
call, the thread that ran static initialisation (the main thread, here
thread 0) reads "main", not the sentinel. -/
theorem getThreadName_main_counterexample :
    getThreadName (g_logThreadName 0) 0 = "main" ∧ "main" ≠ "<unknown>" :=
  ⟨rfl, by decide⟩

/-- C5 amended: after `setThreadName n` on a thread, `getThreadName` on
that thread returns `n`, whatever names were set before (later calls
overwrite earlier ones); and a thread, other than the main thread whose
slot static initialisation fills with "main", on which no `setThreadName`
call was ever made, reads the unknown-name sentinel. -/
theorem threadName_set_get :
    ∀ (mainThread : Nat) (calls : List (String × Nat)) (t : Nat) (n : String),
      getThreadName
          (setThreadName n t (applyNameCalls (g_logThreadName mainThread) calls)) t = n
      ∧ (t ≠ mainThread → (∀ p ∈ calls, p.2 ≠ t) →
          getThreadName (applyNameCalls (g_logThreadName mainThread) calls) t
            = "<unknown>") := by
  intro mainThread calls t n
  constructor
  · simp [getThreadName, setThreadName]
  · intro hmt hcalls
    rw [getThreadName, applyNameCalls_slot_of_not_called calls _ t hcalls]
    simp [g_logThreadName, mkThreadLocalLogName, hmt]

/-- C5 amended witness: thread 2 overwrites "a" with "worker" and reads
it back; thread 2, untouched by a call from thread 1, reads the
sentinel. -/
theorem threadName_set_get_witness :
    getThreadName
        (setThreadName "worker" 2 (applyNameCalls (g_logThreadName 0) [("x", 1)])) 2
      = "worker"
    ∧ getThreadName (applyNameCalls (g_logThreadName 0) [("x", 1)]) 2 = "<unknown>" :=
  ⟨(threadName_set_get 0 [("x", 1)] 2 "worker").1,
   (threadName_set_get 0 [("x", 1)] 2 "worker").2 (by decide) (by decide)⟩

/-- A sequence of operations containing no setup call leaves the vm-trace
flag untouched. -/
theorem applyLogOps_vmTrace_of_no_setup :
    ∀ (ops : List LogOp) (s : LogState),
      (∀ op ∈ ops, op.isSetup = false) →
      (applyLogOps s ops).vmTraceEnabled = s.vmTraceEnabled := by
  intro ops
  induction ops with
  | nil =>
    intro s h
    rfl
  | cons op rest ih =>
    intro s h
    simp only [applyLogOps]
    rw [ih _ (fun q hq => h q (List.mem_cons_of_mem op hq))]
    cases op with
    | setup o => exact absurd (h _ (List.mem_cons_self _ _)) (by simp [LogOp.isSetup])
    | setName n t => rfl
    | emit rec => rfl

/-- C8: after `setupLogging c`, `isVmTraceEnabled` returns `c.vmTrace`
and keeps returning it across any further operations that are not
another setup call. -/
theorem isVmTraceEnabled_after_setup :
    ∀ (s : LogState) (c : LoggingOptions) (ops : List LogOp),
      (∀ op ∈ ops, op.isSetup = false) →
      isVmTraceEnabled (applyLogOps (applyLogOp s (LogOp.setup c)) ops) = c.vmTrace := by
  intro s c ops h
  rw [isVmTraceEnabled, applyLogOps_vmTrace_of_no_setup ops _ h]
  rfl

/-- C8 witness: setup with vmTrace=true followed by a thread-name call
still reads true. -/
theorem isVmTraceEnabled_after_setup_witness :
    isVmTraceEnabled
        (applyLogOps (applyLogOp (initialLogState 0) (LogOp.setup ⟨2, [], [], true⟩))
          [LogOp.setName "w" 1]) = true :=
  isVmTraceEnabled_after_setup (initialLogState 0) ⟨2, [], [], true⟩ [LogOp.setName "w" 1]
    (by
      intro op hop
      rw [List.mem_singleton] at hop
      subst hop
      rfl)

/-- C10: in every state reachable from the initial state without a setup
call, `isVmTraceEnabled` returns false. -/
theorem isVmTraceEnabled_initially_false :
    ∀ (mainThread : Nat) (ops : List LogOp),
      (∀ op ∈ ops, op.isSetup = false) →
      isVmTraceEnabled (applyLogOps (initialLogState mainThread) ops) = false := by
  intro mainThread ops h
  rw [isVmTraceEnabled, applyLogOps_vmTrace_of_no_setup ops _ h]
  rfl

/-- C10 witness: a thread-name call (no setup) from the initial state
still reads false. -/
theorem isVmTraceEnabled_initially_false_witness :
    isVmTraceEnabled (applyLogOps (initialLogState 0) [LogOp.setName "w" 1]) = false :=
  isVmTraceEnabled_initially_false 0 [LogOp.setName "w" 1]
    (by
      intro op hop
      rw [List.mem_singleton] at hop
      subst hop
      rfl)

/-- C4: a failure raised while formatting or writing an accepted record
is absorbed at the core boundary: the pipeline's result on the failing
record followed by further records equals its result on the further
records alone from a state whose only change is the handler's diagnostic
appended to standard error — nothing propagates to the caller, and every
subsequent record is still filtered, formatted and written. -/
theorem exception_reported_pipeline_continues :
    ∀ (fmt : Record → Except String (List Segment)) (opts : LoggingOptions)
      (s : PipelineState) (rec : Record) (recs : List Record) (e : String),
      sinkFilter opts rec.severity rec.channel = true →
      fmt rec = Except.error e →
      processRecords fmt opts s (rec :: recs)
        = processRecords fmt opts
            { s with err := s.err ++ [exceptionDiagnostic e] } recs := by
  intro fmt opts s rec recs e hacc herr
  simp [processRecords, processRecord, hacc, herr]

/-- C4 witness: a formatter that fails on the record carrying message
"bad" reports the diagnostic and the pipeline goes on to the next
record. -/
theorem exception_reported_pipeline_continues_witness :
    processRecords
        (fun r => if r.message = "bad" then Except.error "boom"
                  else Except.ok (formatter r))
        asyncDemoOpts ⟨[], []⟩
        [⟨⟨1, 2, 3, 4, 5⟩, 1, "rpc", "main", none, none, "bad"⟩,
         ⟨⟨1, 2, 3, 4, 5⟩, 1, "rpc", "main", none, none, "ok"⟩]
      = processRecords
          (fun r => if r.message = "bad" then Except.error "boom"
                    else Except.ok (formatter r))
          asyncDemoOpts ⟨[], [] ++ [exceptionDiagnostic "boom"]⟩
          [⟨⟨1, 2, 3, 4, 5⟩, 1, "rpc", "main", none, none, "ok"⟩] :=
  exception_reported_pipeline_continues
    (fun r => if r.message = "bad" then Except.error "boom"
              else Except.ok (formatter r))
    asyncDemoOpts ⟨[], []⟩
    ⟨⟨1, 2, 3, 4, 5⟩, 1, "rpc", "main", none, none, "bad"⟩
    [⟨⟨1, 2, 3, 4, 5⟩, 1, "rpc", "main", none, none, "ok"⟩]
    "boom" (by decide) rfl

/-- One asynchronous-sink step preserves the conserved quantity. -/
theorem asyncStep_preserves_invariant :
    ∀ (opts : LoggingOptions) (total : List (List Segment)) (s t : AsyncState),
      AsyncStep opts s t → asyncInvariant opts total s → asyncInvariant opts total t := by
  intro opts total s t hstep hinv
  cases hstep with
  | submit rec pending queue written hacc =>
    simp only [asyncInvariant] at hinv ⊢
    rw [← hinv]
    simp [List.filter_cons, hacc]
  | reject rec pending queue written hrej =>
    simp only [asyncInvariant] at hinv ⊢
    rw [← hinv]
    simp [List.filter_cons, hrej]
  | write rec pending queue written =>
    simp only [asyncInvariant] at hinv ⊢
    rw [← hinv]
    simp

/-- Every state reachable by interleaved steps satisfies the conserved
quantity. -/
theorem asyncReach_invariant :
    ∀ (opts : LoggingOptions) (total : List (List Segment)) (s t : AsyncState),
      AsyncReach opts s t → asyncInvariant opts total s → asyncInvariant opts total t := by
  intro opts total s t hreach
  induction hreach with
  | refl => exact id
  | tail hab hbc ih =>
    intro h
    exact asyncStep_preserves_invariant opts total _ _ hbc (ih h)

/-- C9: asynchronous-sink FIFO order: whatever the interleaving of
emission and worker steps, once every record submitted by the thread has
been handled and the queue is drained, the stream holds exactly the
accepted records, formatted, in submission order. -/
theorem asyncSink_fifo :
    ∀ (opts : LoggingOptions) (recs : List Record) (written : List (List Segment)),
      AsyncReach opts ⟨recs, [], []⟩ ⟨[], [], written⟩ →
      written
        = (recs.filter (fun r => sinkFilter opts r.severity r.channel)).map formatter := by
  intro opts recs written hreach
  have h0 : asyncInvariant opts
      ((recs.filter (fun r => sinkFilter opts r.severity r.channel)).map formatter)
      ⟨recs, [], []⟩ := by
    simp [asyncInvariant]
  have h1 := asyncReach_invariant opts
    ((recs.filter (fun r => sinkFilter opts r.severity r.channel)).map formatter)
    _ _ hreach h0
  simpa [asyncInvariant] using h1

/-- C9 witness: three records (the middle one filtered out) pushed
through one concrete interleaving of submissions and worker writes end
up on the stream formatted, in submission order. -/
theorem asyncSink_fifo_witness :
    [formatter asyncDemoRec1, formatter asyncDemoRec3]
      = (([asyncDemoRec1, asyncDemoRec2, asyncDemoRec3].filter
            (fun r => sinkFilter asyncDemoOpts r.severity r.channel)).map formatter) := by
  refine asyncSink_fifo asyncDemoOpts [asyncDemoRec1, asyncDemoRec2, asyncDemoRec3]
    [formatter asyncDemoRec1, formatter asyncDemoRec3] ?_
  show Relation.ReflTransGen (AsyncStep asyncDemoOpts) _ _
  exact Relation.ReflTransGen.head
    (AsyncStep.submit asyncDemoRec1 [asyncDemoRec2, asyncDemoRec3] [] [] (by decide))
    (Relation.ReflTransGen.head
      (AsyncStep.reject asyncDemoRec2 [asyncDemoRec3] [asyncDemoRec1] [] (by decide))
      (Relation.ReflTransGen.head
        (AsyncStep.write asyncDemoRec1 [asyncDemoRec3] [] [])
        (Relation.ReflTransGen.head
          (AsyncStep.submit asyncDemoRec3 [] [] [formatter asyncDemoRec1] (by decide))
          (Relation.ReflTransGen.head
            (AsyncStep.write asyncDemoRec3 [] [] [formatter asyncDemoRec1])
            Relation.ReflTransGen.refl))))

end Dev
